import Mathlib

/-!
Verification development for the hanoi-redemption repository.

The Python sources are shallowly embedded as Lean definitions:

* `Tower`, `HanoiMove`, `HanoiGameState` mirror `src/schemas`
  (`hanoi_move.py`, `game_state.py`).
* `TowersOfHanoi.reset`, `is_valid_move`, `make_move`, `is_solved` mirror
  `src/game/towers_of_hanoi.py`; the mutable object is embedded as explicit
  state passing, Python lists become Lean lists (index 0 = top disk).
* `hanoiFuel` is the direct embedding of the untyped recursion
  `OptimalSolver._hanoi_recursive` (`src/game/optimal_solver.py`): the disk
  count is an `Int` as in Python and the general recursion is made total by a
  fuel parameter, `none` meaning the computation did not finish within the
  given recursion depth.  `hanoi_moves` is its total counterpart used for
  reasoning; `hanoiFuel_sound` proves both agree for every `n ≥ 1`.
* `TesterState`, `validate_and_execute_move`, `run_game_loop`,
  `TestRunner.run_test` mirror `src/testing/ai_tester.py` and
  `src/testing/test_runner.py`.  The AI move source is embedded as a function
  from the tester state to an optional (move, reasoning) pair; printing is
  dropped (it never feeds back into the logic).
* `ResultsManager.generate_test_results` mirrors
  `src/testing/results_manager.py`; `Main.generate_test_results` mirrors the
  older duplicated `HanoiAITester._generate_test_results` in `src/main.py`.
  Python floats are modelled as exact rationals (`ℚ`); `round1` models
  `round(x, 1)` as round-half-even to one decimal.
-/

inductive Tower : Type
  | A
  | B
  | C
deriving DecidableEq, Repr

/-- Textual name of a tower, as used in the Python error f-strings. -/
def Tower.name : Tower → String
  | Tower.A => "A"
  | Tower.B => "B"
  | Tower.C => "C"

/-- Embedding of `HanoiMove` (src/schemas/hanoi_move.py): a (source,
destination) tower pair.  `source ≠ destination` is not enforced at
construction, only at validation. -/
structure HanoiMove : Type where
  source_tower : Tower
  destination_tower : Tower
deriving DecidableEq, Repr

/-- Embedding of `HanoiGameState` (src/schemas/game_state.py): three lists of
disk sizes, index 0 is the top disk. -/
structure HanoiGameState : Type where
  tower_a : List Nat
  tower_b : List Nat
  tower_c : List Nat
deriving DecidableEq, Repr

/-- Embedding of `HanoiGameState.get_tower`. -/
def HanoiGameState.get_tower (s : HanoiGameState) : Tower → List Nat
  | Tower.A => s.tower_a
  | Tower.B => s.tower_b
  | Tower.C => s.tower_c

/-- Embedding of `HanoiGameState.set_tower`. -/
def HanoiGameState.set_tower (s : HanoiGameState) : Tower → List Nat → HanoiGameState
  | Tower.A, disks => { s with tower_a := disks }
  | Tower.B, disks => { s with tower_b := disks }
  | Tower.C, disks => { s with tower_c := disks }

/-- Embedding of the `TowersOfHanoi` object (src/game/towers_of_hanoi.py):
its `num_disks` field together with its mutable `state`. -/
structure TowersOfHanoi : Type where
  num_disks : Nat
  state : HanoiGameState
deriving DecidableEq, Repr

/-- Embedding of `TowersOfHanoi.reset` (together with `__init__`, which calls
it): all disks on tower A as `[1, 2, ..., num_disks]`, towers B and C empty. -/
def TowersOfHanoi.reset (num_disks : Nat) : TowersOfHanoi :=
  { num_disks := num_disks
    state :=
      { tower_a := List.range' 1 num_disks
        tower_b := []
        tower_c := [] } }

/-- Message of the same-tower rejection in `is_valid_move`. -/
def sameTowerMsg (t : Tower) : String :=
  "Cannot move from tower " ++ t.name ++ " to itself"

/-- Message of the empty-source rejection in `is_valid_move`. -/
def emptyTowerMsg (t : Tower) : String :=
  "Tower " ++ t.name ++ " is empty"

/-- Message of the size-violation rejection in `is_valid_move`. -/
def sizeViolationMsg (src dst : Nat) : String :=
  "Cannot place disk " ++ toString src ++ " on top of disk " ++ toString dst

/-- Embedding of `TowersOfHanoi.is_valid_move`: returns
(is_valid, error_message).  It is a pure function of the state and the move,
hence deterministic and side-effect free by construction. -/
def TowersOfHanoi.is_valid_move (g : TowersOfHanoi) (move : HanoiMove) : Bool × String :=
  let source_tower := g.state.get_tower move.source_tower
  let dest_tower := g.state.get_tower move.destination_tower
  if move.source_tower = move.destination_tower then
    (false, sameTowerMsg move.source_tower)
  else if source_tower.isEmpty then
    (false, emptyTowerMsg move.source_tower)
  else if !dest_tower.isEmpty && source_tower.headD 0 > dest_tower.headD 0 then
    (false, sizeViolationMsg (source_tower.headD 0) (dest_tower.headD 0))
  else
    (true, "")

/-- Embedding of `TowersOfHanoi.make_move`: validates, then pops the top disk
of the source tower and pushes it on the destination tower.  Returns the
success flag and the next state (unchanged when the move is rejected). -/
def TowersOfHanoi.make_move (g : TowersOfHanoi) (move : HanoiMove) : Bool × TowersOfHanoi :=
  if !(g.is_valid_move move).1 then
    (false, g)
  else
    let source_tower := g.state.get_tower move.source_tower
    let dest_tower := g.state.get_tower move.destination_tower
    let disk := source_tower.headD 0
    let s1 := g.state.set_tower move.source_tower source_tower.tail
    let s2 := s1.set_tower move.destination_tower (disk :: dest_tower)
    (true, { g with state := s2 })

/-- Embedding of `TowersOfHanoi.is_solved`: tower C holds `num_disks` disks
and towers A and B are empty. -/
def TowersOfHanoi.is_solved (g : TowersOfHanoi) : Bool :=
  g.state.tower_c.length == g.num_disks &&
  g.state.tower_a.length == 0 &&
  g.state.tower_b.length == 0

/-- Direct embedding of `OptimalSolver._hanoi_recursive`
(src/game/optimal_solver.py).  As in Python, the disk count is an integer and
the recursion has the single base case `n == 1`; the `else` branch recurses on
`n - 1` twice around the emitted move.  General recursion is made total with a
fuel parameter: `none` means the recursion did not reach a base case within
`fuel` nested calls, so an answer of `none` for all fuels is divergence. -/
def hanoiFuel : Nat → Int → Tower → Tower → Tower → Option (List HanoiMove)
  | 0, _, _, _, _ => none
  | fuel + 1, n, source, destination, auxiliary =>
    if n = 1 then
      some [⟨source, destination⟩]
    else
      match hanoiFuel fuel (n - 1) source auxiliary destination with
      | none => none
      | some moves1 =>
        match hanoiFuel fuel (n - 1) auxiliary destination source with
        | none => none
        | some moves2 => some (moves1 ++ [⟨source, destination⟩] ++ moves2)

/-- Total counterpart of `hanoiFuel`, used for reasoning.  For every `n ≥ 1`
it returns exactly the move list produced by `_hanoi_recursive`
(theorem `hanoiFuel_sound`); at `n = 0` it returns `[]` whereas the Python
recursion diverges (captured by `hanoiFuel`). -/
def hanoi_moves : Nat → Tower → Tower → Tower → List HanoiMove
  | 0, _, _, _ => []
  | n + 1, source, destination, auxiliary =>
    hanoi_moves n source auxiliary destination
      ++ [⟨source, destination⟩]
      ++ hanoi_moves n auxiliary destination source

/-- Embedding of `OptimalSolver.solve`: the full optimal solution, moving all
disks from tower A to tower C with auxiliary B. -/
def OptimalSolver.solve (num_disks : Nat) : List HanoiMove :=
  hanoi_moves num_disks Tower.A Tower.C Tower.B

/-- Embedding of `OptimalSolver.get_total_moves`: closed form `2 ^ n - 1`,
computed without generating the sequence. -/
def OptimalSolver.get_total_moves (num_disks : Nat) : Nat :=
  2 ^ num_disks - 1

/-- Embedding of `OptimalSolver.get_next_optimal_move`.  The Python method
lazily fills `self.moves` via `solve()` and raises `IndexError` when
`move_number` is outside `[0, len(moves))`; raising is modelled with
`Except`.  `move_number` is an `Int`, as negative indices are possible in
Python at this call site (they are rejected by the explicit range check
before any list access). -/
def OptimalSolver.get_next_optimal_move (num_disks : Nat) (move_number : Int) :
    Except String HanoiMove :=
  let moves := OptimalSolver.solve num_disks
  if 0 ≤ move_number ∧ move_number < (moves.length : Int) then
    Except.ok (moves.getD move_number.toNat ⟨Tower.A, Tower.A⟩)
  else
    Except.error ("Move " ++ toString move_number ++ " is out of range for "
      ++ toString num_disks ++ " disks")

/-- Embedding of `OptimalSolver.is_optimal_move`: compares the proposed move
with the canonical optimal move at this index, catching the `IndexError` and
returning `false` in that case. -/
def OptimalSolver.is_optimal_move (num_disks : Nat) (move : HanoiMove)
    (move_number : Int) : Bool :=
  match OptimalSolver.get_next_optimal_move num_disks move_number with
  | Except.ok optimal_move =>
      move.source_tower == optimal_move.source_tower &&
      move.destination_tower == optimal_move.destination_tower
  | Except.error _ => false

/-- Applying a list of moves in order through `make_move`
(rejected moves leave the state unchanged, as in the Python object). -/
def apply_moves (g : TowersOfHanoi) : List HanoiMove → TowersOfHanoi
  | [] => g
  | move :: rest => apply_moves (g.make_move move).2 rest

/-- Every move of the list passes `is_valid_move` at the state where it is
applied. -/
def all_valid (g : TowersOfHanoi) : List HanoiMove → Bool
  | [] => true
  | move :: rest => (g.is_valid_move move).1 && all_valid (g.make_move move).2 rest

/-- Embedding of one per-turn entry of `HanoiAITester.test_results`
(src/testing/ai_tester.py): the Python dict with keys `turn`, `ai_move`
(source/destination), `is_valid`, `ai_reasoning`. -/
structure TestRecord : Type where
  turn : Nat
  ai_move_source : Tower
  ai_move_destination : Tower
  is_valid : Bool
  ai_reasoning : String
deriving DecidableEq, Repr

/-- Embedding of the mutable fields of `HanoiAITester`
(src/testing/ai_tester.py) that the core logic reads or writes. -/
structure TesterState : Type where
  game : TowersOfHanoi
  move_count : Nat
  test_results : List TestRecord
  recent_moves : List HanoiMove
  recent_states : List HanoiGameState
  recent_reasoning : List String
deriving DecidableEq, Repr

/-- Embedding of `HanoiAITester.__init__` / `reset`: fresh game, zero moves,
empty record and history lists. -/
def TesterState.init (num_disks : Nat) : TesterState :=
  { game := TowersOfHanoi.reset num_disks
    move_count := 0
    test_results := []
    recent_moves := []
    recent_states := []
    recent_reasoning := [] }

/-- Embedding of the `append` + `if len > 3: pop(0)` idiom keeping the last 3
entries of the recent-history lists. -/
def trimRecent {α : Type} (l : List α) : List α :=
  if l.length > 3 then l.tail else l

/-- Embedding of `HanoiAITester.validate_and_execute_move`.  Note the early
return on an invalid move: it happens before the `test_results.append`, so a
rejected move leaves the tester state (records included) unchanged and only
the returned message carries the reason. -/
def validate_and_execute_move (t : TesterState) (ai_move : HanoiMove)
    (ai_reasoning : String) : (Bool × String) × TesterState :=
  let v := t.game.is_valid_move ai_move
  if !v.1 then
    ((false, v.2), t)
  else
    let record : TestRecord :=
      { turn := t.move_count + 1
        ai_move_source := ai_move.source_tower
        ai_move_destination := ai_move.destination_tower
        is_valid := v.1
        ai_reasoning := ai_reasoning }
    let t1 : TesterState := { t with test_results := t.test_results ++ [record] }
    let state_before_move := t1.game.state
    let r := t1.game.make_move ai_move
    if r.1 then
      let t2 : TesterState :=
        { t1 with
          game := r.2
          move_count := t1.move_count + 1
          recent_moves := trimRecent (t1.recent_moves ++ [ai_move])
          recent_states := trimRecent (t1.recent_states ++ [state_before_move])
          recent_reasoning := trimRecent (t1.recent_reasoning ++ [ai_reasoning]) }
      ((true, "Move executed successfully"), t2)
    else
      ((false, "Failed to execute move"), t1)

/-- The external move source (AI client): given the tester state it either
produces a (move, reasoning) pair or fails (`none`), exactly the two outcomes
of `HanoiAITester.get_ai_move`. -/
def MoveSource : Type :=
  TesterState → Option (HanoiMove × String)

/-- Embedding of `TestRunner._run_game_loop` in auto mode: loop while the
puzzle is unsolved and `move_count < max_moves`; stop when the source fails
or a move is rejected.  Each continuing iteration increments `move_count`, so
any fuel of at least `max_moves - move_count` reaches the real exit condition
(theorem `run_game_loop_fuel_stable`). -/
def run_game_loop (ms : MoveSource) (max_moves : Nat) : Nat → TesterState → TesterState
  | 0, t => t
  | fuel + 1, t =>
    if t.game.is_solved || decide (t.move_count ≥ max_moves) then t
    else
      match ms t with
      | none => t
      | some (ai_move, ai_reasoning) =>
        let r := validate_and_execute_move t ai_move ai_reasoning
        if r.1.1 then run_game_loop ms max_moves fuel r.2
        else r.2

/-- Round-half-even of a rational, modelling how Python `round` breaks ties. -/
def roundHalfEven (q : ℚ) : ℤ :=
  let f := ⌊q⌋
  let r := q - f
  if r < 1 / 2 then f
  else if 1 / 2 < r then f + 1
  else if f % 2 = 0 then f else f + 1

/-- Model of Python `round(x, 1)` on floats, with floats embedded as exact
rationals: round-half-even to one decimal. -/
def round1 (q : ℚ) : ℚ :=
  (roundHalfEven (q * 10) : ℚ) / 10

/-- Embedding of the results dict produced by
`ResultsManager.generate_test_results` / `HanoiAITester._generate_test_results`. -/
structure TestResults : Type where
  num_disks : Nat
  success : Bool
  status : String
  total_moves : Nat
  optimal_moves : Nat
  max_moves : Nat
  efficiency_percent : ℚ
  exceeded_optimal : Bool
  exceeded_budget : Bool
  move_details : List TestRecord
deriving DecidableEq, Repr

/-- Embedding of `ResultsManager.generate_test_results`
(src/testing/results_manager.py): 3-outcome classification, efficiency
computed only when the game is solved (0.0 otherwise). -/
def ResultsManager.generate_test_results (num_disks : Nat) (t : TesterState)
    (optimal_moves max_moves : Nat) : TestResults :=
  let solved := t.game.is_solved
  let success_status : Bool × String :=
    if solved then
      if t.move_count ≤ optimal_moves then (true, "OPTIMAL_SUCCESS")
      else if t.move_count ≤ max_moves then (true, "SUCCESS")
      else (false, "FAILURE")
    else (false, "FAILURE")
  let efficiency : ℚ :=
    if solved then
      if t.move_count > 0 then (optimal_moves : ℚ) / (t.move_count : ℚ) * 100 else 0
    else 0
  { num_disks := num_disks
    success := success_status.1
    status := success_status.2
    total_moves := t.move_count
    optimal_moves := optimal_moves
    max_moves := max_moves
    efficiency_percent := round1 efficiency
    exceeded_optimal := decide (t.move_count > optimal_moves)
    exceeded_budget := decide (t.move_count > max_moves)
    move_details := t.test_results }

/-- Embedding of the duplicated legacy `HanoiAITester._generate_test_results`
in src/main.py: identical classification, but the efficiency is computed
unconditionally whenever `move_count > 0`, solved or not. -/
def Main.generate_test_results (num_disks : Nat) (t : TesterState)
    (optimal_moves max_moves : Nat) : TestResults :=
  let solved := t.game.is_solved
  let success_status : Bool × String :=
    if solved then
      if t.move_count ≤ optimal_moves then (true, "OPTIMAL_SUCCESS")
      else if t.move_count ≤ max_moves then (true, "SUCCESS")
      else (false, "FAILURE")
    else (false, "FAILURE")
  let efficiency : ℚ :=
    if t.move_count > 0 then (optimal_moves : ℚ) / (t.move_count : ℚ) * 100 else 0
  { num_disks := num_disks
    success := success_status.1
    status := success_status.2
    total_moves := t.move_count
    optimal_moves := optimal_moves
    max_moves := max_moves
    efficiency_percent := round1 efficiency
    exceeded_optimal := decide (t.move_count > optimal_moves)
    exceeded_budget := decide (t.move_count > max_moves)
    move_details := t.test_results }

/-- Which value the efficiency line of
`ResultsManager.display_final_results` reports: the percentage only when the
run was successful, otherwise the line prints "N/A (game not completed)",
modelled as `none`. -/
def ResultsManager.displayed_efficiency (results : TestResults) : Option ℚ :=
  if results.success then some results.efficiency_percent else none

/-- Which value the efficiency line of the legacy
`HanoiAITester._display_final_results` in src/main.py reports: the stored
percentage, printed unconditionally for successful and failed runs alike. -/
def Main.displayed_efficiency (results : TestResults) : Option ℚ :=
  some results.efficiency_percent

/-- Embedding of the core of `TestRunner.run_test`
(src/testing/test_runner.py): compute the budgets
(`optimal = 2 ^ n - 1`, `max = optimal * 2`), run the game loop on a fresh
tester, and hand the final state to the results manager.  The fuel
`max_moves` always reaches the loop's own exit condition because every
continuing iteration increments `move_count` (theorem
`run_game_loop_fuel_stable`). -/
def TestRunner.run_test (num_disks : Nat) (ms : MoveSource) : TestResults :=
  let optimal_moves := 2 ^ num_disks - 1
  let max_moves := optimal_moves * 2
  let t0 := TesterState.init num_disks
  let tFinal := run_game_loop ms max_moves max_moves t0
  ResultsManager.generate_test_results num_disks tFinal optimal_moves max_moves

/-- Multiset of all disks currently on the three towers. -/
def msum (s : HanoiGameState) : Multiset Nat :=
  (s.tower_a : Multiset Nat) + (s.tower_b : Multiset Nat) + (s.tower_c : Multiset Nat)

/-- Spec §3 Peg invariant: disk sizes strictly increase from index 0 downward
(top disk is smallest). -/
def sortedTower (l : List Nat) : Prop :=
  List.Chain' (· < ·) l

/-- Executable decision procedure for `sortedTower` by structural recursion
(kernel-reducible, so concrete invariant checks evaluate by `decide`). -/
instance sortedTowerDec : (l : List Nat) → Decidable (sortedTower l)
  | [] => isTrue List.chain'_nil
  | [x] => isTrue (List.chain'_singleton x)
  | x :: y :: rest =>
    match Nat.decLt x y with
    | isFalse h => isFalse (fun hc => h (List.chain'_cons.mp hc).1)
    | isTrue h =>
      match sortedTowerDec (y :: rest) with
      | isTrue h2 => isTrue (List.chain'_cons.mpr ⟨h, h2⟩)
      | isFalse h2 => isFalse (fun hc => h2 (List.chain'_cons.mp hc).2)

/-- Spec §3 PuzzleState invariants: the multiset union of the three towers is
exactly {1..N} (stated as a permutation of the list `[1..N]`), and every
tower is sorted with the smallest disk on top. -/
def TowersOfHanoi.inv (g : TowersOfHanoi) : Prop :=
  (g.state.tower_a ++ g.state.tower_b ++ g.state.tower_c).Perm
    (List.range' 1 g.num_disks) ∧
  sortedTower g.state.tower_a ∧ sortedTower g.state.tower_b ∧ sortedTower g.state.tower_c

instance (g : TowersOfHanoi) : Decidable g.inv :=
  inferInstanceAs (Decidable
    ((g.state.tower_a ++ g.state.tower_b ++ g.state.tower_c).Perm
        (List.range' 1 g.num_disks) ∧
     sortedTower g.state.tower_a ∧ sortedTower g.state.tower_b ∧
     sortedTower g.state.tower_c))

/-- Reason classification of `validate`, following the wording of spec §4.2:
`SameTower` when source equals destination (checked first, unconditionally),
`EmptySource` when the source peg has no disks, `SizeViolation` when the
destination peg is non-empty and its top disk is smaller than the source's
top disk, otherwise valid. -/
inductive ValidationReason : Type
  | sameTower
  | emptySource
  | sizeViolation
  | valid
deriving DecidableEq, Repr

/-- Spec-side validator, written from the spec's words (§4.2) for comparison
with the embedded `is_valid_move`. -/
def spec_validate (g : TowersOfHanoi) (m : HanoiMove) : ValidationReason :=
  if m.source_tower = m.destination_tower then ValidationReason.sameTower
  else
    match g.state.get_tower m.source_tower, g.state.get_tower m.destination_tower with
    | [], _ => ValidationReason.emptySource
    | x :: _, y :: _ =>
      if y < x then ValidationReason.sizeViolation else ValidationReason.valid
    | _ :: _, [] => ValidationReason.valid

/-- The reason string the code produces for each spec-side verdict: the empty
string when valid, and the corresponding formatted message otherwise. -/
def spec_reason_text (g : TowersOfHanoi) (m : HanoiMove) : ValidationReason → String
  | ValidationReason.sameTower => sameTowerMsg m.source_tower
  | ValidationReason.emptySource => emptyTowerMsg m.source_tower
  | ValidationReason.sizeViolation =>
      sizeViolationMsg ((g.state.get_tower m.source_tower).headD 0)
        ((g.state.get_tower m.destination_tower).headD 0)
  | ValidationReason.valid => ""

/-- A scripted move source that shuttles disk 1 around forever: it proposes a
valid, non-solving move from every invariant-respecting state. -/
def cycleMs : MoveSource := fun t =>
  if t.game.state.tower_a.head? = some 1 then some (⟨Tower.A, Tower.B⟩, "")
  else if t.game.state.tower_b.head? = some 1 then some (⟨Tower.B, Tower.A⟩, "")
  else some (⟨Tower.C, Tower.A⟩, "")

/-- Scripted source for end-to-end scenario B: the optimal first two moves,
then the invalid move A→C (disk 3 onto disk 1) from turn 3 on. -/
def scenarioB_ms : MoveSource := fun t =>
  if t.move_count = 0 then some (⟨Tower.A, Tower.C⟩, "")
  else if t.move_count = 1 then some (⟨Tower.A, Tower.B⟩, "")
  else some (⟨Tower.A, Tower.C⟩, "")

/-- Concrete failed run for the legacy src/main.py path (same construction
as the repository's own test_budget_validation.py test 4: move count set,
game unsolved). -/
def failedRunTester : TesterState :=
  { game := { num_disks := 3
              state := { tower_a := [3], tower_b := [2], tower_c := [1] } }
    move_count := 2
    test_results := []
    recent_moves := []
    recent_states := []
    recent_reasoning := [] }

/-- Concrete successful run: solved in the optimal 7 moves. -/
def okTester : TesterState :=
  { game := { num_disks := 3
              state := { tower_a := [], tower_b := [], tower_c := [1, 2, 3] } }
    move_count := 7
    test_results := []
    recent_moves := []
    recent_states := []
    recent_reasoning := [] }

theorem msum_eq_coe_append (s : HanoiGameState) :
    msum s = ((s.tower_a ++ s.tower_b ++ s.tower_c : List Nat) : Multiset Nat) := by
  simp [msum]

theorem inv_msum (g : TowersOfHanoi) (h : g.inv) :
    msum g.state = ((List.range' 1 g.num_disks : List Nat) : Multiset Nat) := by
  rw [msum_eq_coe_append]
  exact Multiset.coe_eq_coe.mpr h.1

theorem range'_one_concat (s n : Nat) :
    List.range' s (n + 1) = List.range' s n ++ [s + n] := by
  have h := @List.range'_concat 1 s n
  simpa using h

theorem pairwise_lt_range'_one (s n : Nat) : (List.range' s n).Pairwise (· < ·) := by
  induction n generalizing s with
  | zero => simp [List.range']
  | succ k ih =>
    rw [List.range'_succ]
    refine List.pairwise_cons.mpr ⟨?_, ih (s + 1)⟩
    intro b hb
    have := List.mem_range'_1.mp hb
    omega

theorem chain'_lt_range' (s n : Nat) : List.Chain' (· < ·) (List.range' s n) :=
  List.chain'_iff_pairwise.mpr (pairwise_lt_range'_one s n)

theorem get_set_self (s : HanoiGameState) (t : Tower) (l : List Nat) :
    (s.set_tower t l).get_tower t = l := by
  cases t <;> rfl

theorem get_set_other (s : HanoiGameState) (t t' : Tower) (l : List Nat) (h : t' ≠ t) :
    (s.set_tower t l).get_tower t' = s.get_tower t' := by
  cases t <;> cases t' <;> first | rfl | exact absurd rfl h

/-- Characterization of the `is_valid_move` flag: source differs from
destination, the source tower is non-empty, and the source's top disk is at
most the destination's top disk (when the destination is non-empty). -/
theorem is_valid_move_fst_iff (g : TowersOfHanoi) (m : HanoiMove) :
    (g.is_valid_move m).1 = true ↔
      m.source_tower ≠ m.destination_tower ∧
      g.state.get_tower m.source_tower ≠ [] ∧
      ∀ y ∈ (g.state.get_tower m.destination_tower).head?,
        (g.state.get_tower m.source_tower).headD 0 ≤ y := by
  unfold TowersOfHanoi.is_valid_move
  by_cases h1 : m.source_tower = m.destination_tower
  · simp [h1]
  · rcases hs : g.state.get_tower m.source_tower with _ | ⟨x, xs⟩
    · simp [h1, hs]
    · rcases hd : g.state.get_tower m.destination_tower with _ | ⟨y, ys⟩
      · simp [h1, hs, hd]
      · by_cases h2 : x > y
        all_goals simp [h1, hs, hd, h2]
        all_goals omega

theorem make_move_of_invalid (g : TowersOfHanoi) (m : HanoiMove)
    (h : (g.is_valid_move m).1 = false) : g.make_move m = (false, g) := by
  unfold TowersOfHanoi.make_move
  simp [h]

theorem make_move_fst_of_valid (g : TowersOfHanoi) (m : HanoiMove)
    (h : (g.is_valid_move m).1 = true) : (g.make_move m).1 = true := by
  unfold TowersOfHanoi.make_move
  simp [h]

theorem make_move_state_of_valid (g : TowersOfHanoi) (m : HanoiMove)
    (h : (g.is_valid_move m).1 = true) :
    (g.make_move m).2.state =
      (g.state.set_tower m.source_tower
          (g.state.get_tower m.source_tower).tail).set_tower
        m.destination_tower
        ((g.state.get_tower m.source_tower).headD 0 ::
          g.state.get_tower m.destination_tower) := by
  unfold TowersOfHanoi.make_move
  simp [h]

theorem make_move_num_disks (g : TowersOfHanoi) (m : HanoiMove) :
    (g.make_move m).2.num_disks = g.num_disks := by
  unfold TowersOfHanoi.make_move
  by_cases h : (g.is_valid_move m).1 <;> simp [h]

/-- Full description of a successfully applied move: the flag is true, the
moved disk leaves the top of the source and arrives on top of the
destination, and the third tower is untouched. -/
theorem make_move_valid_towers (g : TowersOfHanoi) (m : HanoiMove) (x : Nat) (xs : List Nat)
    (hne : m.source_tower ≠ m.destination_tower)
    (hs : g.state.get_tower m.source_tower = x :: xs)
    (hd : ∀ y ∈ (g.state.get_tower m.destination_tower).head?, x ≤ y) :
    (g.is_valid_move m).1 = true ∧
    (g.make_move m).1 = true ∧
    (g.make_move m).2.num_disks = g.num_disks ∧
    (g.make_move m).2.state.get_tower m.source_tower = xs ∧
    (g.make_move m).2.state.get_tower m.destination_tower =
      x :: g.state.get_tower m.destination_tower ∧
    ∀ t, t ≠ m.source_tower → t ≠ m.destination_tower →
      (g.make_move m).2.state.get_tower t = g.state.get_tower t := by
  have hv : (g.is_valid_move m).1 = true := by
    refine (is_valid_move_fst_iff g m).mpr ⟨hne, by simp [hs], ?_⟩
    intro y hy
    simpa [hs] using hd y hy
  refine ⟨hv, make_move_fst_of_valid g m hv, make_move_num_disks g m, ?_, ?_, ?_⟩
  · rw [make_move_state_of_valid g m hv]
    rw [get_set_other _ _ _ _ hne, get_set_self, hs]
    rfl
  · rw [make_move_state_of_valid g m hv]
    rw [get_set_self, hs]
    rfl
  · intro t ht1 ht2
    rw [make_move_state_of_valid g m hv]
    rw [get_set_other _ _ _ _ ht2, get_set_other _ _ _ _ ht1]

theorem msum_set_move (s : HanoiGameState) (t1 t2 : Tower) (h : t1 ≠ t2)
    (x : Nat) (xs : List Nat) (h1 : s.get_tower t1 = x :: xs) :
    msum ((s.set_tower t1 xs).set_tower t2 (x :: s.get_tower t2)) = msum s := by
  cases t1 <;> cases t2 <;> (try exact absurd rfl h) <;>
    simp only [msum, HanoiGameState.get_tower, HanoiGameState.set_tower] at h1 ⊢ <;>
    rw [h1] <;>
    simp only [← Multiset.cons_coe, ← Multiset.singleton_add] <;>
    abel

theorem mem_get_tower_ne (s : HanoiGameState) (hnd : (msum s).Nodup) (t1 t2 : Tower)
    (h : t1 ≠ t2) (x : Nat) (h1 : x ∈ s.get_tower t1) (h2 : x ∈ s.get_tower t2) :
    False := by
  have hc : Multiset.count x (msum s) ≤ 1 := Multiset.nodup_iff_count_le_one.mp hnd x
  simp only [msum, Multiset.count_add, Multiset.coe_count] at hc
  have p1 : 0 < List.count x (s.get_tower t1) := List.count_pos_iff.mpr h1
  have p2 : 0 < List.count x (s.get_tower t2) := List.count_pos_iff.mpr h2
  cases t1 <;> cases t2 <;> (try exact absurd rfl h) <;>
    simp only [HanoiGameState.get_tower] at p1 p2 <;> omega

theorem inv_sorted_get (g : TowersOfHanoi) (h : g.inv) (t : Tower) :
    sortedTower (g.state.get_tower t) := by
  obtain ⟨-, hA, hB, hC⟩ := h
  cases t
  · exact hA
  · exact hB
  · exact hC

theorem inv_msum_nodup (g : TowersOfHanoi) (h : g.inv) : (msum g.state).Nodup := by
  rw [inv_msum g h]
  exact Multiset.coe_nodup.mpr (List.nodup_range' 1 g.num_disks)

/-- `reset(n)` establishes the state invariants: the disks are exactly
{1..n}, all on tower A in ascending order. -/
theorem inv_reset (n : Nat) : (TowersOfHanoi.reset n).inv := by
  refine ⟨?_, ?_, ?_, ?_⟩
  · simp [TowersOfHanoi.reset]
  · exact chain'_lt_range' 1 n
  · exact List.chain'_nil
  · exact List.chain'_nil

/-- `make_move` preserves the state invariants, whether it applies the move
or rejects it. -/
theorem inv_make_move (g : TowersOfHanoi) (m : HanoiMove) (h : g.inv) :
    (g.make_move m).2.inv := by
  by_cases hv : (g.is_valid_move m).1
  case neg =>
    rw [make_move_of_invalid g m (by simpa using hv)]
    exact h
  case pos =>
    obtain ⟨hne, hsne, hd⟩ := (is_valid_move_fst_iff g m).mp hv
    obtain ⟨x, xs, hs⟩ : ∃ x xs, g.state.get_tower m.source_tower = x :: xs := by
      rcases hcase : g.state.get_tower m.source_tower with _ | ⟨a, l⟩
      · exact absurd hcase hsne
      · exact ⟨a, l, rfl⟩
    have hdle : ∀ y ∈ (g.state.get_tower m.destination_tower).head?, x ≤ y := by
      intro y hy
      simpa [hs] using hd y hy
    obtain ⟨-, -, hnum, hsrc, hdst, hother⟩ := make_move_valid_towers g m x xs hne hs hdle
    have hstate := make_move_state_of_valid g m hv
    have hmsum : msum (g.make_move m).2.state = msum g.state := by
      rw [hstate]
      have := msum_set_move g.state m.source_tower m.destination_tower hne x xs hs
      simpa [hs] using this
    have hnd := inv_msum_nodup g h
    have hall : ∀ t : Tower, sortedTower ((g.make_move m).2.state.get_tower t) := by
      intro t
      by_cases h1 : t = m.source_tower
      · rw [h1, hsrc]
        have hsorted := inv_sorted_get g h m.source_tower
        rw [hs] at hsorted
        exact hsorted.tail
      · by_cases h2 : t = m.destination_tower
        · rw [h2, hdst]
          refine List.chain'_cons'.mpr ⟨?_, inv_sorted_get g h m.destination_tower⟩
          intro y hy
          have hyd : y ∈ g.state.get_tower m.destination_tower := by
            rcases hcase : g.state.get_tower m.destination_tower with _ | ⟨a, l⟩
            · rw [hcase] at hy
              simp at hy
            · rw [hcase] at hy
              simp at hy
              subst hy
              exact List.mem_cons_self a l
          have hxy : x ≤ y := hdle y hy
          have hxm : x ∈ g.state.get_tower m.source_tower := by
            rw [hs]
            exact List.mem_cons_self x xs
          have hne2 : x ≠ y := by
            intro hcontra
            subst hcontra
            exact mem_get_tower_ne g.state hnd m.source_tower m.destination_tower hne x hxm hyd
          omega
        · rw [hother t h1 h2]
          exact inv_sorted_get g h t
    refine ⟨?_, hall Tower.A, hall Tower.B, hall Tower.C⟩
    have hcoe : msum (g.make_move m).2.state =
        ((List.range' 1 (g.make_move m).2.num_disks : List Nat) : Multiset Nat) := by
      rw [hmsum, hnum]
      exact inv_msum g h
    rw [msum_eq_coe_append] at hcoe
    exact Multiset.coe_eq_coe.mp hcoe

theorem apply_moves_append (g : TowersOfHanoi) (l1 l2 : List HanoiMove) :
    apply_moves g (l1 ++ l2) = apply_moves (apply_moves g l1) l2 := by
  induction l1 generalizing g with
  | nil => rfl
  | cons m rest ih => simp [apply_moves, ih]

theorem all_valid_append (g : TowersOfHanoi) (l1 l2 : List HanoiMove) :
    all_valid g (l1 ++ l2) = (all_valid g l1 && all_valid (apply_moves g l1) l2) := by
  induction l1 generalizing g with
  | nil => simp [all_valid, apply_moves]
  | cons m rest ih =>
    simp [all_valid, apply_moves, ih, Bool.and_assoc]

/-- Correctness of the recursive solver: if the `n` smallest disks `1..n` sit
on top of tower `s` and every disk on the other two towers (and below them on
`s`) is larger than `n`, then the move sequence `hanoi_moves n s d a` is
valid at every step and transfers exactly those `n` disks to the top of
tower `d`, leaving tower `a` as it was. -/
theorem hanoi_spec :
    ∀ (n : Nat) (s d a : Tower) (g : TowersOfHanoi) (rs rd ra : List Nat),
      s ≠ d → s ≠ a → d ≠ a →
      g.state.get_tower s = List.range' 1 n ++ rs →
      g.state.get_tower d = rd →
      g.state.get_tower a = ra →
      (∀ y ∈ rs, n < y) → (∀ y ∈ rd, n < y) → (∀ y ∈ ra, n < y) →
      all_valid g (hanoi_moves n s d a) = true ∧
      (apply_moves g (hanoi_moves n s d a)).num_disks = g.num_disks ∧
      (apply_moves g (hanoi_moves n s d a)).state.get_tower s = rs ∧
      (apply_moves g (hanoi_moves n s d a)).state.get_tower d = List.range' 1 n ++ rd ∧
      (apply_moves g (hanoi_moves n s d a)).state.get_tower a = ra := by
  intro n
  induction n with
  | zero =>
    intro s d a g rs rd ra hsd hsa hda hgs hgd hga hrs hrd hra
    refine ⟨rfl, rfl, ?_, ?_, hga⟩
    · show g.state.get_tower s = rs
      rw [hgs]
      rfl
    · show g.state.get_tower d = List.range' 1 0 ++ rd
      rw [hgd]
      rfl
  | succ k ih =>
    intro s d a g rs rd ra hsd hsa hda hgs hgd hga hrs hrd hra
    have hsplit : List.range' 1 (k + 1) ++ rs = List.range' 1 k ++ ((k + 1) :: rs) := by
      rw [range'_one_concat 1 k]
      simp
      omega
    have hgs' : g.state.get_tower s = List.range' 1 k ++ ((k + 1) :: rs) := by
      rw [hgs, hsplit]
    have hbound1 : ∀ y ∈ (k + 1) :: rs, k < y := by
      intro y hy
      rcases List.mem_cons.mp hy with rfl | hy'
      · omega
      · have := hrs y hy'
        omega
    have hbound2 : ∀ y ∈ ra, k < y := fun y hy => by have := hra y hy; omega
    have hbound3 : ∀ y ∈ rd, k < y := fun y hy => by have := hrd y hy; omega
    -- Step 1: move the k smallest disks from s to a (auxiliary d).
    obtain ⟨hv1, hn1, hs1, ha1, hd1⟩ :=
      ih s a d g ((k + 1) :: rs) ra rd hsa hsd (fun hc => hda hc.symm)
        hgs' hga hgd hbound1 hbound2 hbound3
    set g1 := apply_moves g (hanoi_moves k s a d) with hg1
    -- Step 2: move disk k+1 from s to d.
    have hd1head : ∀ y ∈ (g1.state.get_tower d).head?, k + 1 ≤ y := by
      intro y hy
      rw [hd1] at hy
      rcases rd with _ | ⟨z, zs⟩
      · simp at hy
      · simp at hy
        subst hy
        exact Nat.le_of_lt (hrd z (List.mem_cons_self z zs))
    obtain ⟨hv2, hf2, hn2, hs2, hd2, hoth2⟩ :=
      make_move_valid_towers g1 ⟨s, d⟩ (k + 1) rs hsd hs1 hd1head
    set g2 := (g1.make_move ⟨s, d⟩).2 with hg2
    have ha2 : g2.state.get_tower a = List.range' 1 k ++ ra := by
      rw [hg2, hoth2 a (fun hc => hsa hc.symm) (fun hc => hda hc.symm), ha1]
    have hd2' : g2.state.get_tower d = (k + 1) :: rd := by
      rw [hg2, hd2, hd1]
    have hs2' : g2.state.get_tower s = rs := by
      rw [hg2, hs2]
    have hbound4 : ∀ y ∈ (k + 1) :: rd, k < y := by
      intro y hy
      rcases List.mem_cons.mp hy with rfl | hy'
      · omega
      · have := hrd y hy'
        omega
    have hbound5 : ∀ y ∈ rs, k < y := fun y hy => by have := hrs y hy; omega
    -- Step 3: move the k smallest disks from a to d (auxiliary s).
    obtain ⟨hv3, hn3, ha3, hd3, hs3⟩ :=
      ih a d s g2 ra ((k + 1) :: rd) rs (fun hc => hda hc.symm) (fun hc => hsa hc.symm)
        (fun hc => hsd hc.symm) ha2 hd2' hs2' hbound2 hbound4 hbound5
    -- Assemble the three phases.
    have happly : apply_moves g (hanoi_moves (k + 1) s d a) =
        apply_moves g2 (hanoi_moves k a d s) := by
      show apply_moves g ((hanoi_moves k s a d ++ [⟨s, d⟩]) ++ hanoi_moves k a d s) = _
      rw [apply_moves_append, apply_moves_append]
      rfl
    have hvalid : all_valid g (hanoi_moves (k + 1) s d a) = true := by
      have hmid : all_valid g1 [⟨s, d⟩] = true := by
        simp [all_valid, hv2]
      show all_valid g ((hanoi_moves k s a d ++ [⟨s, d⟩]) ++ hanoi_moves k a d s) = true
      rw [all_valid_append, all_valid_append, hv1, hmid, apply_moves_append]
      simp only [Bool.true_and]
      exact hv3
    have hfinal : List.range' 1 k ++ ((k + 1) :: rd) = List.range' 1 (k + 1) ++ rd := by
      rw [range'_one_concat 1 k]
      simp
      omega
    refine ⟨hvalid, ?_, ?_, ?_, ?_⟩
    · rw [happly, hn3]
      show g2.num_disks = g.num_disks
      rw [hg2, make_move_num_disks, hg1, hn1]
    · rw [happly, hs3]
    · rw [happly, hd3, hfinal]
    · rw [happly, ha3]

theorem hanoi_moves_length (n : Nat) :
    ∀ s d a : Tower, (hanoi_moves n s d a).length = 2 ^ n - 1 := by
  induction n with
  | zero => intro s d a; rfl
  | succ k ih =>
    intro s d a
    show (hanoi_moves k s a d ++ [(⟨s, d⟩ : HanoiMove)] ++ hanoi_moves k a d s).length
      = 2 ^ (k + 1) - 1
    have h2 : 1 ≤ 2 ^ k := Nat.one_le_two_pow
    simp [ih, Nat.pow_succ]
    omega

/-- Agreement of the fuel-indexed embedding with the total recursion: for
every `n ≥ 1` and any recursion-depth budget of at least `n`, the embedded
`_hanoi_recursive` terminates and produces `hanoi_moves n`. -/
theorem hanoiFuel_sound :
    ∀ (fuel n : Nat), 1 ≤ n → n ≤ fuel → ∀ s d a : Tower,
      hanoiFuel fuel (n : Int) s d a = some (hanoi_moves n s d a) := by
  intro fuel
  induction fuel with
  | zero =>
    intro n h1 h2
    omega
  | succ f ih =>
    intro n h1 h2 s d a
    rcases n with _ | m
    · omega
    rcases m with _ | k
    · show hanoiFuel (f + 1) (1 : Int) s d a = some (hanoi_moves 1 s d a)
      simp [hanoiFuel, hanoi_moves]
    · have hne : ((k + 2 : Nat) : Int) ≠ 1 := by
        push_cast
        omega
      have hsub : ((k + 2 : Nat) : Int) - 1 = ((k + 1 : Nat) : Int) := by
        push_cast
        ring
      have hrec1 := ih (k + 1) (by omega) (by omega) s a d
      have hrec2 := ih (k + 1) (by omega) (by omega) a d s
      show hanoiFuel (f + 1) ((k + 2 : Nat) : Int) s d a = _
      rw [hanoiFuel, if_neg hne, hsub, hrec1, hrec2]
      rfl

/-- The embedded `_hanoi_recursive` returns `none` for every recursion-depth
budget when the disk count is not positive: it never reaches the `n == 1`
base case and diverges. -/
theorem hanoiFuel_nonpos :
    ∀ (fuel : Nat) (n : Int), n ≤ 0 → ∀ s d a : Tower,
      hanoiFuel fuel n s d a = none := by
  intro fuel
  induction fuel with
  | zero => intro n h s d a; rfl
  | succ f ih =>
    intro n h s d a
    have hne : n ≠ 1 := by omega
    rw [hanoiFuel, if_neg hne, ih (n - 1) (by omega) s a d]

theorem get_next_error_of_not_cond (num_disks : Nat) (k : Int)
    (h : ¬(0 ≤ k ∧ k < ((OptimalSolver.solve num_disks).length : Int))) :
    OptimalSolver.get_next_optimal_move num_disks k =
      Except.error ("Move " ++ toString k ++ " is out of range for "
        ++ toString num_disks ++ " disks") := by
  unfold OptimalSolver.get_next_optimal_move
  simp only [if_neg h]

theorem get_next_ok_of_cond (num_disks : Nat) (k : Int)
    (h : 0 ≤ k ∧ k < ((OptimalSolver.solve num_disks).length : Int)) :
    OptimalSolver.get_next_optimal_move num_disks k =
      Except.ok ((OptimalSolver.solve num_disks).getD k.toNat ⟨Tower.A, Tower.A⟩) := by
  unfold OptimalSolver.get_next_optimal_move
  simp only [if_pos h]

/-- C4: `is_valid_move` checks same-tower first (unconditionally, regardless
of state), then empty source, then the size violation (destination non-empty
with a top disk smaller than the source's top disk), and otherwise returns
valid with an empty reason string; the flag and the reason string agree
exactly with the spec-side validator.  The embedded function is pure, so it
is deterministic and side-effect free by construction. -/
theorem is_valid_move_matches_spec (g : TowersOfHanoi) (m : HanoiMove) :
    g.is_valid_move m =
      (decide (spec_validate g m = ValidationReason.valid),
       spec_reason_text g m (spec_validate g m)) := by
  unfold TowersOfHanoi.is_valid_move spec_validate
  by_cases h1 : m.source_tower = m.destination_tower
  · simp [h1, spec_reason_text]
  · rcases hs : g.state.get_tower m.source_tower with _ | ⟨x, xs⟩
    · simp [h1, hs, spec_reason_text]
    · rcases hd : g.state.get_tower m.destination_tower with _ | ⟨y, ys⟩
      · simp [h1, hs, hd, spec_reason_text]
      · by_cases h2 : y < x
        · simp [h1, hs, hd, h2, spec_reason_text]
        · simp [h1, hs, hd, h2, spec_reason_text]

/-- C1: for every N ≥ 1, applying the moves of `solve(N)` in order to a
freshly reset N-disk state passes `is_valid_move` at every step, and after
the last move `is_solved()` returns true. -/
theorem optimal_solution_solves (n : Nat) (hn : 1 ≤ n) :
    all_valid (TowersOfHanoi.reset n) (OptimalSolver.solve n) = true ∧
    (apply_moves (TowersOfHanoi.reset n) (OptimalSolver.solve n)).is_solved = true := by
  have hempty : ∀ y ∈ ([] : List Nat), n < y := by
    intro y hy
    exact absurd hy (List.not_mem_nil y)
  obtain ⟨hv, hnum, hA, hC, hB⟩ :=
    hanoi_spec n Tower.A Tower.C Tower.B (TowersOfHanoi.reset n) [] [] []
      (by decide) (by decide) (by decide)
      (by simp [TowersOfHanoi.reset, HanoiGameState.get_tower])
      rfl rfl hempty hempty hempty
  refine ⟨hv, ?_⟩
  have hA' : (apply_moves (TowersOfHanoi.reset n) (OptimalSolver.solve n)).state.tower_a = [] :=
    hA
  have hB' : (apply_moves (TowersOfHanoi.reset n) (OptimalSolver.solve n)).state.tower_b = [] :=
    hB
  have hC' : (apply_moves (TowersOfHanoi.reset n) (OptimalSolver.solve n)).state.tower_c
      = List.range' 1 n ++ [] := hC
  have hnum' : (apply_moves (TowersOfHanoi.reset n) (OptimalSolver.solve n)).num_disks = n :=
    hnum
  unfold TowersOfHanoi.is_solved
  rw [hA', hB', hC', hnum']
  simp

/-- C1 witness: the concrete 3-disk instance. -/
theorem optimal_solution_solves_witness :
    all_valid (TowersOfHanoi.reset 3) (OptimalSolver.solve 3) = true ∧
    (apply_moves (TowersOfHanoi.reset 3) (OptimalSolver.solve 3)).is_solved = true :=
  optimal_solution_solves 3 (by decide)

/-- C2: for every N ≥ 1 the move sequence returned by `solve()` has length
exactly 2^N − 1, and this equals the closed-form value returned by
`get_total_moves()`. -/
theorem solve_length_eq_total_moves (n : Nat) (hn : 1 ≤ n) :
    (OptimalSolver.solve n).length = 2 ^ n - 1 ∧
    OptimalSolver.get_total_moves n = 2 ^ n - 1 ∧
    (OptimalSolver.solve n).length = OptimalSolver.get_total_moves n := by
  exact ⟨hanoi_moves_length n Tower.A Tower.C Tower.B, rfl,
    hanoi_moves_length n Tower.A Tower.C Tower.B⟩

/-- C2 witness: the concrete 3-disk instance. -/
theorem solve_length_eq_total_moves_witness :
    (OptimalSolver.solve 3).length = 2 ^ 3 - 1 ∧
    OptimalSolver.get_total_moves 3 = 2 ^ 3 - 1 ∧
    (OptimalSolver.solve 3).length = OptimalSolver.get_total_moves 3 :=
  solve_length_eq_total_moves 3 (by decide)

/-- C3: `make_move` preserves the two state invariants (the multiset of all
disks is exactly {1..N} and every tower is strictly increasing from the top),
whether it applies or rejects the move, and `reset(n)` establishes them. -/
theorem make_move_reset_preserve_invariants (g : TowersOfHanoi) (m : HanoiMove)
    (n : Nat) (h : g.inv) :
    (g.make_move m).2.inv ∧ (TowersOfHanoi.reset n).inv :=
  ⟨inv_make_move g m h, inv_reset n⟩

/-- C3 witness: a concrete mid-game state with the move applied, plus a
concrete reset. -/
theorem make_move_reset_preserve_invariants_witness :
    (TowersOfHanoi.make_move
        { num_disks := 3
          state := { tower_a := [2], tower_b := [1, 3], tower_c := [] } }
        ⟨Tower.B, Tower.A⟩).2.inv ∧
    (TowersOfHanoi.reset 5).inv :=
  make_move_reset_preserve_invariants
    { num_disks := 3, state := { tower_a := [2], tower_b := [1, 3], tower_c := [] } }
    ⟨Tower.B, Tower.A⟩ 5 (by decide)

/-- C9: the embedded `_hanoi_recursive` terminates exactly for positive disk
counts: some recursion-depth budget suffices if and only if `n ≥ 1`.  For
`n ≥ 1` the recursion strictly decreases `n` to the base case `n = 1` (depth
`n` suffices, theorem `hanoiFuel_sound`); for `n ≤ 0` no budget suffices
(theorem `hanoiFuel_nonpos`), which is non-termination of the unchecked
Python recursion. -/
theorem hanoi_recursive_terminates_iff_positive (n : Int) (s d a : Tower) :
    (∃ fuel, (hanoiFuel fuel n s d a).isSome = true) ↔ 1 ≤ n := by
  constructor
  · rintro ⟨fuel, hf⟩
    by_contra hlt
    have hle : n ≤ 0 := by omega
    rw [hanoiFuel_nonpos fuel n hle s d a] at hf
    simp at hf
  · intro h1
    refine ⟨n.toNat, ?_⟩
    have hcast : ((n.toNat : Nat) : Int) = n := Int.toNat_of_nonneg (by omega)
    have hs := hanoiFuel_sound n.toNat n.toNat (by omega) le_rfl s d a
    rw [hcast] at hs
    rw [hs]
    rfl

/-- C10: for every proposed move and every out-of-range index (negative or at
least 2^N − 1), `is_optimal_move` returns false without raising, while
`get_next_optimal_move` raises `IndexError` (embedded as `Except.error`) at
the same index. -/
theorem is_optimal_move_false_out_of_range (num_disks : Nat) (move : HanoiMove)
    (move_number : Int) (hn : 1 ≤ num_disks)
    (hk : move_number < 0 ∨ (2 ^ num_disks - 1 : Int) ≤ move_number) :
    OptimalSolver.is_optimal_move num_disks move move_number = false ∧
    ∃ msg, OptimalSolver.get_next_optimal_move num_disks move_number
      = Except.error msg := by
  have h2 : 1 ≤ 2 ^ num_disks := Nat.one_le_two_pow
  have hlen : ((OptimalSolver.solve num_disks).length : Int) = 2 ^ num_disks - 1 := by
    rw [OptimalSolver.solve, hanoi_moves_length]
    rw [Nat.cast_sub h2]
    push_cast
    ring
  have hcond : ¬(0 ≤ move_number ∧
      move_number < ((OptimalSolver.solve num_disks).length : Int)) := by
    rw [hlen]
    rcases hk with hk | hk
    · omega
    · intro hcontra
      omega
  have herr := get_next_error_of_not_cond num_disks move_number hcond
  refine ⟨?_, _, herr⟩
  unfold OptimalSolver.is_optimal_move
  rw [herr]

/-- C10 witness: index 3 is out of range for 2 disks (2^2 − 1 = 3 moves). -/
theorem is_optimal_move_false_out_of_range_witness :
    OptimalSolver.is_optimal_move 2 ⟨Tower.A, Tower.C⟩ 3 = false ∧
    ∃ msg, OptimalSolver.get_next_optimal_move 2 3 = Except.error msg :=
  is_optimal_move_false_out_of_range 2 ⟨Tower.A, Tower.C⟩ 3 (by decide) (by decide)

/-- C8: under the state invariants, `is_solved()` returns true exactly when
towers A and B are empty and tower C holds all N disks in order
(sizes strictly increasing from the top), i.e. equals `[1, 2, ..., N]`. -/
theorem is_solved_iff_all_disks_on_c (g : TowersOfHanoi) (h : g.inv) :
    g.is_solved = true ↔
      g.state.tower_a = [] ∧ g.state.tower_b = [] ∧
      g.state.tower_c = List.range' 1 g.num_disks := by
  constructor
  · intro hs
    unfold TowersOfHanoi.is_solved at hs
    simp only [Bool.and_eq_true, beq_iff_eq, List.length_eq_zero] at hs
    obtain ⟨⟨hc, ha⟩, hb⟩ := hs
    refine ⟨ha, hb, ?_⟩
    have hm := inv_msum g h
    rw [msum_eq_coe_append, ha, hb] at hm
    simp only [List.nil_append] at hm
    have hperm : g.state.tower_c.Perm (List.range' 1 g.num_disks) :=
      Multiset.coe_eq_coe.mp hm
    have hsortC : List.Pairwise (· < ·) g.state.tower_c :=
      List.chain'_iff_pairwise.mp h.2.2.2
    have hsortR : List.Pairwise (· < ·) (List.range' 1 g.num_disks) :=
      pairwise_lt_range'_one 1 g.num_disks
    haveI : IsAntisymm Nat (· < ·) := ⟨fun a b h1 h2 => absurd h2 (lt_asymm h1)⟩
    exact List.eq_of_perm_of_sorted hperm hsortC hsortR
  · rintro ⟨ha, hb, hc⟩
    unfold TowersOfHanoi.is_solved
    rw [ha, hb, hc]
    simp

/-- C8 witness: a concrete solved 2-disk state satisfying the invariants. -/
theorem is_solved_iff_all_disks_on_c_witness :
    ({ num_disks := 2, state := { tower_a := [], tower_b := [], tower_c := [1, 2] } }
        : TowersOfHanoi).is_solved = true ↔
      ({ num_disks := 2, state := { tower_a := [], tower_b := [], tower_c := [1, 2] } }
          : TowersOfHanoi).state.tower_a = [] ∧
      ({ num_disks := 2, state := { tower_a := [], tower_b := [], tower_c := [1, 2] } }
          : TowersOfHanoi).state.tower_b = [] ∧
      ({ num_disks := 2, state := { tower_a := [], tower_b := [], tower_c := [1, 2] } }
          : TowersOfHanoi).state.tower_c = List.range' 1 2 :=
  is_solved_iff_all_disks_on_c
    { num_disks := 2, state := { tower_a := [], tower_b := [], tower_c := [1, 2] } }
    (by decide)

/-- A rejected move leaves the tester completely unchanged (no record is
appended, the move is not applied, the counter is not incremented); only the
returned message carries the rejection reason. -/
theorem vem_invalid (t : TesterState) (mv : HanoiMove) (r : String)
    (h : (t.game.is_valid_move mv).1 = false) :
    validate_and_execute_move t mv r = ((false, (t.game.is_valid_move mv).2), t) := by
  unfold validate_and_execute_move
  simp [h]

/-- A valid move is recorded, applied, and counted. -/
theorem vem_valid (t : TesterState) (mv : HanoiMove) (r : String)
    (h : (t.game.is_valid_move mv).1 = true) :
    (validate_and_execute_move t mv r).1.1 = true ∧
    (validate_and_execute_move t mv r).2.game = (t.game.make_move mv).2 ∧
    (validate_and_execute_move t mv r).2.move_count = t.move_count + 1 ∧
    (validate_and_execute_move t mv r).2.test_results = t.test_results ++
      [{ turn := t.move_count + 1
         ai_move_source := mv.source_tower
         ai_move_destination := mv.destination_tower
         is_valid := true
         ai_reasoning := r }] := by
  unfold validate_and_execute_move
  simp [h, make_move_fst_of_valid t.game mv h]

/-- The consumed-move counter never exceeds the budget: the loop halts as
soon as `move_count` reaches `max_moves` and each iteration adds at most one
move. -/
theorem run_game_loop_count_le (ms : MoveSource) (max_moves : Nat) :
    ∀ fuel t, t.move_count ≤ max_moves →
      (run_game_loop ms max_moves fuel t).move_count ≤ max_moves := by
  intro fuel
  induction fuel with
  | zero =>
    intro t h
    simpa [run_game_loop] using h
  | succ f ih =>
    intro t h
    rw [run_game_loop]
    by_cases h1 : (t.game.is_solved || decide (t.move_count ≥ max_moves)) = true
    · simp only [h1, if_true]
      exact h
    · simp only [h1, if_false, Bool.false_eq_true]
      cases hms : ms t with
      | none => exact h
      | some p =>
        obtain ⟨mv, r⟩ := p
        dsimp only
        by_cases hval : (t.game.is_valid_move mv).1 = true
        · obtain ⟨hv1, -, hv3, -⟩ := vem_valid t mv r hval
          rw [hv1]
          simp only [if_true]
          have hlt : t.move_count < max_moves := by
            simp only [Bool.or_eq_true, decide_eq_true_iff] at h1
            omega
          exact ih _ (by rw [hv3]; omega)
        · rw [vem_invalid t mv r (by simpa using hval)]
          simpa using h

/-- The loop's value does not depend on the fuel once the fuel covers the
remaining budget `max_moves - move_count`: every continuing iteration
increments `move_count`, so the loop reaches its own exit condition within
that many steps.  This justifies running the embedded loop with fuel
`max_moves`. -/
theorem run_game_loop_fuel_stable (ms : MoveSource) (max_moves : Nat) :
    ∀ fuel1 fuel2 t, max_moves - t.move_count ≤ fuel1 →
      max_moves - t.move_count ≤ fuel2 →
      run_game_loop ms max_moves fuel1 t = run_game_loop ms max_moves fuel2 t := by
  intro fuel1
  induction fuel1 with
  | zero =>
    intro fuel2 t h1 h2
    have hge : t.move_count ≥ max_moves := by omega
    cases fuel2 with
    | zero => rfl
    | succ f2 =>
      rw [run_game_loop, run_game_loop]
      simp [hge]
  | succ f1 ih =>
    intro fuel2 t h1 h2
    cases fuel2 with
    | zero =>
      have hge : t.move_count ≥ max_moves := by omega
      rw [run_game_loop, run_game_loop]
      simp [hge]
    | succ f2 =>
      rw [run_game_loop]
      conv_rhs => rw [run_game_loop]
      by_cases hhalt : (t.game.is_solved || decide (t.move_count ≥ max_moves)) = true
      · simp only [hhalt, if_true]
      · simp only [hhalt, if_false, Bool.false_eq_true]
        cases hms : ms t with
        | none => rfl
        | some p =>
          obtain ⟨mv, r⟩ := p
          dsimp only
          by_cases hval : (t.game.is_valid_move mv).1 = true
          · obtain ⟨hv1, -, hv3, -⟩ := vem_valid t mv r hval
            rw [hv1]
            simp only [if_true]
            have hlt : t.move_count < max_moves := by
              simp only [Bool.or_eq_true, decide_eq_true_iff] at hhalt
              omega
            exact ih f2 _ (by rw [hv3]; omega) (by rw [hv3]; omega)
          · rw [vem_invalid t mv r (by simpa using hval)]
            simp

/-- When the move source always answers with a valid, non-solving move (on
any invariant-respecting state), the loop runs the budget down exactly: it
halts with `move_count = max_moves` and the puzzle unsolved. -/
theorem run_game_loop_budget_exact (n max_moves : Nat) (ms : MoveSource)
    (hms : ∀ t : TesterState, t.game.inv → t.game.num_disks = n →
      ∃ mv r, ms t = some (mv, r) ∧ (t.game.is_valid_move mv).1 = true ∧
        (t.game.make_move mv).2.is_solved = false) :
    ∀ fuel t, t.game.inv → t.game.num_disks = n → t.game.is_solved = false →
      t.move_count ≤ max_moves → max_moves - t.move_count ≤ fuel →
      (run_game_loop ms max_moves fuel t).move_count = max_moves ∧
      (run_game_loop ms max_moves fuel t).game.is_solved = false := by
  intro fuel
  induction fuel with
  | zero =>
    intro t hinv hnd hns hle hfuel
    have heq : t.move_count = max_moves := by omega
    rw [run_game_loop]
    exact ⟨heq, hns⟩
  | succ f ih =>
    intro t hinv hnd hns hle hfuel
    rw [run_game_loop]
    by_cases hmax : t.move_count ≥ max_moves
    · have heq : t.move_count = max_moves := by omega
      have hcond : (t.game.is_solved || decide (t.move_count ≥ max_moves)) = true := by
        simp [hmax]
      rw [hcond]
      simp only [if_true]
      exact ⟨heq, hns⟩
    · have hcond : (t.game.is_solved || decide (t.move_count ≥ max_moves)) = false := by
        simp [hns, hmax]
      rw [hcond]
      simp only [Bool.false_eq_true, if_false]
      obtain ⟨mv, r, hmsr, hval, hnsolve⟩ := hms t hinv hnd
      rw [hmsr]
      dsimp only
      obtain ⟨hv1, hv2, hv3, -⟩ := vem_valid t mv r hval
      rw [hv1]
      simp only [if_true]
      refine ih (validate_and_execute_move t mv r).2 ?_ ?_ ?_ ?_ ?_
      · rw [hv2]
        exact inv_make_move t.game mv hinv
      · rw [hv2, make_move_num_disks]
        exact hnd
      · rw [hv2]
        exact hnsolve
      · rw [hv3]
        omega
      · rw [hv3]
        omega

/-- The FAILURE classification of an unsolved run in
`ResultsManager.generate_test_results`. -/
theorem generate_results_not_solved (num_disks : Nat) (t : TesterState)
    (optimal_moves max_moves : Nat) (h : t.game.is_solved = false) :
    (ResultsManager.generate_test_results num_disks t optimal_moves max_moves).success
        = false ∧
    (ResultsManager.generate_test_results num_disks t optimal_moves max_moves).status
        = "FAILURE" ∧
    (ResultsManager.generate_test_results num_disks t optimal_moves max_moves).total_moves
        = t.move_count ∧
    (ResultsManager.generate_test_results num_disks t optimal_moves max_moves).max_moves
        = max_moves := by
  unfold ResultsManager.generate_test_results
  simp [h]

/-- C6: the move budget is `optimal * 2 = 2 × (2^N − 1)`; a run whose move
source supplies only valid, non-solving moves halts after exactly that many
applied moves and is classified FAILURE, and the consumed-move counter never
exceeds the budget for any move source. -/
theorem budget_exhaustion_failure (n : Nat) (hn : 1 ≤ n) (ms : MoveSource)
    (hms : ∀ t : TesterState, t.game.inv → t.game.num_disks = n →
      ∃ mv r, ms t = some (mv, r) ∧ (t.game.is_valid_move mv).1 = true ∧
        (t.game.make_move mv).2.is_solved = false) :
    (TestRunner.run_test n ms).status = "FAILURE" ∧
    (TestRunner.run_test n ms).success = false ∧
    (TestRunner.run_test n ms).total_moves = 2 * (2 ^ n - 1) ∧
    (TestRunner.run_test n ms).max_moves = 2 * (2 ^ n - 1) ∧
    ∀ fuel,
      (run_game_loop ms ((2 ^ n - 1) * 2) fuel (TesterState.init n)).move_count
        ≤ (2 ^ n - 1) * 2 := by
  have hsolved0 : (TesterState.init n).game.is_solved = false := by
    unfold TesterState.init TowersOfHanoi.reset TowersOfHanoi.is_solved
    simp
    omega
  have hsub : (2 ^ n - 1) * 2 - (TesterState.init n).move_count ≤ (2 ^ n - 1) * 2 := by
    simp [TesterState.init]
  obtain ⟨hcount, hunsolved⟩ :=
    run_game_loop_budget_exact n ((2 ^ n - 1) * 2) ms hms ((2 ^ n - 1) * 2)
      (TesterState.init n) (inv_reset n) rfl hsolved0 (Nat.zero_le _) hsub
  obtain ⟨hsuc, hstat, htot, hmax⟩ :=
    generate_results_not_solved n
      (run_game_loop ms ((2 ^ n - 1) * 2) ((2 ^ n - 1) * 2) (TesterState.init n))
      (2 ^ n - 1) ((2 ^ n - 1) * 2) hunsolved
  refine ⟨hstat, hsuc, ?_, ?_, ?_⟩
  · show (ResultsManager.generate_test_results n
        (run_game_loop ms ((2 ^ n - 1) * 2) ((2 ^ n - 1) * 2) (TesterState.init n))
        (2 ^ n - 1) ((2 ^ n - 1) * 2)).total_moves = 2 * (2 ^ n - 1)
    rw [htot, hcount]
    ring
  · show (ResultsManager.generate_test_results n
        (run_game_loop ms ((2 ^ n - 1) * 2) ((2 ^ n - 1) * 2) (TesterState.init n))
        (2 ^ n - 1) ((2 ^ n - 1) * 2)).max_moves = 2 * (2 ^ n - 1)
    rw [hmax]
    ring
  · intro fuel
    exact run_game_loop_count_le ms ((2 ^ n - 1) * 2) fuel (TesterState.init n)
      (Nat.zero_le _)

theorem sorted_head_eq_min (l : List Nat) (hs : sortedTower l) (x : Nat)
    (hx : x ∈ l) (hmin : ∀ y ∈ l, x ≤ y) : l.head? = some x := by
  cases l with
  | nil => exact absurd hx (List.not_mem_nil x)
  | cons a tl =>
    have hpw : List.Pairwise (· < ·) (a :: tl) := List.chain'_iff_pairwise.mp hs
    rcases List.mem_cons.mp hx with rfl | hxt
    · rfl
    · have h1 : a < x := (List.pairwise_cons.mp hpw).1 x hxt
      have h2 : x ≤ a := hmin a (List.mem_cons_self a tl)
      omega

theorem inv_one_le (g : TowersOfHanoi) (h : g.inv) (t : Tower) :
    ∀ y ∈ g.state.get_tower t, 1 ≤ y := by
  intro y hy
  have hmem : y ∈ g.state.tower_a ++ g.state.tower_b ++ g.state.tower_c := by
    cases t
    · exact List.mem_append_left _ (List.mem_append_left _ hy)
    · exact List.mem_append_left _ (List.mem_append_right _ hy)
    · exact List.mem_append_right _ hy
  have hr : y ∈ List.range' 1 g.num_disks := h.1.mem_iff.mp hmem
  exact (List.mem_range'_1.mp hr).1

theorem inv_one_mem (g : TowersOfHanoi) (h : g.inv) (hn : 1 ≤ g.num_disks) :
    1 ∈ g.state.tower_a ∨ 1 ∈ g.state.tower_b ∨ 1 ∈ g.state.tower_c := by
  have h1 : 1 ∈ List.range' 1 g.num_disks := List.mem_range'_1.mpr ⟨le_rfl, by omega⟩
  have hmem : 1 ∈ g.state.tower_a ++ g.state.tower_b ++ g.state.tower_c :=
    h.1.mem_iff.mpr h1
  simpa [List.mem_append, or_assoc] using hmem

theorem nonempty_ab_not_solved (g : TowersOfHanoi)
    (h : g.state.tower_a ≠ [] ∨ g.state.tower_b ≠ []) : g.is_solved = false := by
  rcases h with h | h
  · have hne : g.state.tower_a.length ≠ 0 := by
      simpa [List.length_eq_zero] using h
    simp [TowersOfHanoi.is_solved, hne]
  · have hne : g.state.tower_b.length ≠ 0 := by
      simpa [List.length_eq_zero] using h
    simp [TowersOfHanoi.is_solved, hne]

theorem head?_mem {x : Nat} {l : List Nat} (h : l.head? = some x) : x ∈ l := by
  cases l with
  | nil => simp at h
  | cons a tl =>
    simp at h
    subst h
    exact List.mem_cons_self a tl

theorem cycle_case (g : TowersOfHanoi) (hinv : g.inv) (src dst : Tower)
    (hne : src ≠ dst) (hhead : (g.state.get_tower src).head? = some 1) :
    (g.is_valid_move ⟨src, dst⟩).1 = true ∧
    (g.make_move ⟨src, dst⟩).2.state.get_tower dst = 1 :: g.state.get_tower dst := by
  obtain ⟨xs, hs⟩ : ∃ xs, g.state.get_tower src = 1 :: xs := by
    rcases hc : g.state.get_tower src with _ | ⟨a, l⟩
    · rw [hc] at hhead
      simp at hhead
    · rw [hc] at hhead
      simp at hhead
      exact ⟨l, by rw [hhead]⟩
  have hdle : ∀ y ∈ (g.state.get_tower dst).head?, 1 ≤ y := by
    intro y hy
    rw [Option.mem_def] at hy
    exact inv_one_le g hinv dst y (head?_mem hy)
  obtain ⟨hv, -, -, -, hdst, -⟩ := make_move_valid_towers g ⟨src, dst⟩ 1 xs hne hs hdle
  exact ⟨hv, hdst⟩

theorem cycleMs_good (t : TesterState) (hinv : t.game.inv)
    (hn : 1 ≤ t.game.num_disks) :
    ∃ mv r, cycleMs t = some (mv, r) ∧ (t.game.is_valid_move mv).1 = true ∧
      (t.game.make_move mv).2.is_solved = false := by
  have hnd := inv_msum_nodup t.game hinv
  rcases inv_one_mem t.game hinv hn with h1 | h1 | h1
  · have hheadA : t.game.state.tower_a.head? = some 1 := by
      apply sorted_head_eq_min _ hinv.2.1 1 h1
      intro y hy
      exact inv_one_le t.game hinv Tower.A y hy
    obtain ⟨hv, hdst⟩ := cycle_case t.game hinv Tower.A Tower.B (by decide) hheadA
    refine ⟨⟨Tower.A, Tower.B⟩, "", ?_, hv, ?_⟩
    · unfold cycleMs
      rw [if_pos hheadA]
    · apply nonempty_ab_not_solved
      right
      have hb : (t.game.make_move ⟨Tower.A, Tower.B⟩).2.state.tower_b =
          1 :: t.game.state.tower_b := hdst
      rw [hb]
      simp
  · have hheadB : t.game.state.tower_b.head? = some 1 := by
      apply sorted_head_eq_min _ hinv.2.2.1 1 h1
      intro y hy
      exact inv_one_le t.game hinv Tower.B y hy
    have hnotA : ¬ t.game.state.tower_a.head? = some 1 := by
      intro hc
      exact mem_get_tower_ne t.game.state hnd Tower.A Tower.B (by decide) 1
        (head?_mem hc) h1
    obtain ⟨hv, hdst⟩ := cycle_case t.game hinv Tower.B Tower.A (by decide) hheadB
    refine ⟨⟨Tower.B, Tower.A⟩, "", ?_, hv, ?_⟩
    · unfold cycleMs
      rw [if_neg hnotA, if_pos hheadB]
    · apply nonempty_ab_not_solved
      left
      have ha : (t.game.make_move ⟨Tower.B, Tower.A⟩).2.state.tower_a =
          1 :: t.game.state.tower_a := hdst
      rw [ha]
      simp
  · have hheadC : t.game.state.tower_c.head? = some 1 := by
      apply sorted_head_eq_min _ hinv.2.2.2 1 h1
      intro y hy
      exact inv_one_le t.game hinv Tower.C y hy
    have hnotA : ¬ t.game.state.tower_a.head? = some 1 := by
      intro hc
      exact mem_get_tower_ne t.game.state hnd Tower.A Tower.C (by decide) 1
        (head?_mem hc) h1
    have hnotB : ¬ t.game.state.tower_b.head? = some 1 := by
      intro hc
      exact mem_get_tower_ne t.game.state hnd Tower.B Tower.C (by decide) 1
        (head?_mem hc) h1
    obtain ⟨hv, hdst⟩ := cycle_case t.game hinv Tower.C Tower.A (by decide) hheadC
    refine ⟨⟨Tower.C, Tower.A⟩, "", ?_, hv, ?_⟩
    · unfold cycleMs
      rw [if_neg hnotA, if_neg hnotB]
    · apply nonempty_ab_not_solved
      left
      have ha : (t.game.make_move ⟨Tower.C, Tower.A⟩).2.state.tower_a =
          1 :: t.game.state.tower_a := hdst
      rw [ha]
      simp

/-- C6 witness: for N = 3 and the disk-1-shuttling source, the run fails with
exactly 14 consumed moves. -/
theorem budget_exhaustion_failure_witness :
    (TestRunner.run_test 3 cycleMs).status = "FAILURE" ∧
    (TestRunner.run_test 3 cycleMs).total_moves = 14 := by
  obtain ⟨h1, -, h3, -, -⟩ :=
    budget_exhaustion_failure 3 (by decide) cycleMs
      (fun t hi hnd3 => cycleMs_good t hi (by rw [hnd3]; decide))
  refine ⟨h1, ?_⟩
  rw [h3]
  decide

/-- C5: in scenario B (N = 3, two optimal moves, then an invalid move), the
run halts with status FAILURE and consumed moves = 2, the invalid move is
never applied and never counted — but, contrary to the claim and to the
legacy loop in src/main.py, the rejection is NOT recorded: the per-turn
record list holds only the two valid-move records (the early return in
`validate_and_execute_move` precedes the `test_results.append`), and the
rejection reason is surfaced only in the returned message, leaving the
tester state unchanged. -/
theorem scenarioB_rejection_not_recorded :
    (TestRunner.run_test 3 scenarioB_ms).status = "FAILURE" ∧
    (TestRunner.run_test 3 scenarioB_ms).success = false ∧
    (TestRunner.run_test 3 scenarioB_ms).total_moves = 2 ∧
    (TestRunner.run_test 3 scenarioB_ms).move_details.length = 2 ∧
    (∀ entry ∈ (TestRunner.run_test 3 scenarioB_ms).move_details,
      entry.is_valid = true) ∧
    validate_and_execute_move (run_game_loop scenarioB_ms 14 2 (TesterState.init 3))
        ⟨Tower.A, Tower.C⟩ ""
      = ((false, sizeViolationMsg 3 1),
         run_game_loop scenarioB_ms 14 2 (TesterState.init 3)) := by
  decide

theorem round1_zero : round1 0 = 0 := by
  norm_num [round1, roundHalfEven]

/-- C7 counterexample: on the legacy path in src/main.py
(`_generate_test_results` / `_display_final_results`), a failed run with 2
consumed moves out of an optimal 7 gets `efficiency_percent` = 350 (not 0 or
"not applicable") stored in the generated results and printed in the
displayed output, contradicting the claim that efficiency is never computed
or reported for a failed run. -/
theorem main_efficiency_reported_for_failed_run :
    (Main.generate_test_results 3 failedRunTester 7 14).success = false ∧
    (Main.generate_test_results 3 failedRunTester 7 14).status = "FAILURE" ∧
    (Main.generate_test_results 3 failedRunTester 7 14).efficiency_percent = 350 ∧
    (Main.generate_test_results 3 failedRunTester 7 14).efficiency_percent ≠ 0 ∧
    Main.displayed_efficiency (Main.generate_test_results 3 failedRunTester 7 14)
      = some 350 := by
  have hsolved : failedRunTester.game.is_solved = false := by decide
  unfold Main.generate_test_results Main.displayed_efficiency
  rw [hsolved]
  norm_num [failedRunTester, round1, roundHalfEven]

/-- C7 (amended): on the refactored path
(`ResultsManager.generate_test_results` / `display_final_results`), an
unsolved run gets efficiency 0 in the generated results and "N/A" in the
displayed output; a solved run with consumed moves > 0 gets
`optimal / consumed × 100` (rounded to one decimal), and the display prints
the efficiency value exactly for successful runs.  (The legacy duplicated
path in src/main.py violates the original claim — see the counterexample —
by computing and displaying efficiency for failed runs as well.) -/
theorem results_manager_efficiency_policy (num_disks : Nat) (t : TesterState)
    (optimal_moves max_moves : Nat) :
    (t.game.is_solved = false →
      (ResultsManager.generate_test_results num_disks t optimal_moves
          max_moves).efficiency_percent = 0 ∧
      ResultsManager.displayed_efficiency
        (ResultsManager.generate_test_results num_disks t optimal_moves max_moves)
        = none) ∧
    (t.game.is_solved = true → 0 < t.move_count →
      (ResultsManager.generate_test_results num_disks t optimal_moves
          max_moves).efficiency_percent
        = round1 ((optimal_moves : ℚ) / (t.move_count : ℚ) * 100)) ∧
    ((ResultsManager.generate_test_results num_disks t optimal_moves
        max_moves).success = true →
      ResultsManager.displayed_efficiency
        (ResultsManager.generate_test_results num_disks t optimal_moves max_moves)
        = some ((ResultsManager.generate_test_results num_disks t optimal_moves
            max_moves).efficiency_percent)) := by
  refine ⟨?_, ?_, ?_⟩
  · intro hns
    unfold ResultsManager.generate_test_results ResultsManager.displayed_efficiency
    rw [hns]
    simp only [Bool.false_eq_true, if_false]
    exact ⟨round1_zero, trivial⟩
  · intro hs hpos
    unfold ResultsManager.generate_test_results
    rw [hs]
    simp only [if_true, hpos, gt_iff_lt, if_pos]
  · intro hsuc
    unfold ResultsManager.displayed_efficiency
    rw [hsuc]
    simp

/-- C7 witness: a concrete solved-in-7 run reports the rounded
`optimal / consumed × 100`, and a concrete failed run reports efficiency 0
with the display showing "N/A" (modelled as `none`). -/
theorem results_manager_efficiency_policy_witness :
    (ResultsManager.generate_test_results 3 okTester 7 14).efficiency_percent
      = round1 (((7 : Nat) : ℚ) / ((okTester.move_count : Nat) : ℚ) * 100) ∧
    (ResultsManager.generate_test_results 3 failedRunTester 7 14).efficiency_percent
      = 0 ∧
    ResultsManager.displayed_efficiency
      (ResultsManager.generate_test_results 3 failedRunTester 7 14) = none := by
  refine ⟨(results_manager_efficiency_policy 3 okTester 7 14).2.1 (by decide) (by decide),
    ((results_manager_efficiency_policy 3 failedRunTester 7 14).1 (by decide)).1,
    ((results_manager_efficiency_policy 3 failedRunTester 7 14).1 (by decide)).2⟩
